import Mathlib

/-!
Verification of the protocol-helper layer of a Deno puppeteer port
(`helpers.ts`): event waiting with timeout/abort races, evaluation-string
serialization, page-binding delivery scripts, protocol stream reading and
remote-object release.  Each JS function is shallowly embedded as a Lean
function over explicit state (listener lists, sent-command logs, file
contents); asynchronous races are resolved by an explicit "winner" value
standing for whichever promise settles first.
-/

namespace PuppeteerHelpers

/-- A JavaScript runtime value as far as the helpers inspect it: either a
`TimeoutError` instance, some other `Error` instance, or a non-error value.
Both error forms satisfy `instanceof Error`. -/
inductive JVal where
  | timeoutError (msg : String)
  | jsError (msg : String)
  | value (payload : String)
deriving DecidableEq, Repr

/-- The `instanceof Error` test on the embedded values. -/
def JVal.isError : JVal → Bool
  | .timeoutError _ => true
  | .jsError _ => true
  | .value _ => false

/-- Substring helpers used to state that an error message names a
condition: `charsStartWith l sub` is true when `sub` is an initial
segment of `l`. -/
def charsStartWith : List Char → List Char → Bool
  | _, [] => true
  | [], _ :: _ => false
  | a :: as, b :: bs => a = b && charsStartWith as bs

/-- `charsContain l sub` is true when `sub` occurs contiguously in `l`. -/
def charsContain : List Char → List Char → Bool
  | [], sub => sub.isEmpty
  | c :: rest, sub => charsStartWith (c :: rest) sub || charsContain rest sub

/-- String containment (contiguous substring). -/
def strContains (s sub : String) : Bool :=
  charsContain s.data sub.data

/- ### waitForEvent (helpers.ts lines 129-169) -/

/-- Which of the raced promises settles first in
`Promise.race([promise, abortPromise])` together with the pending timeout:
the event promise resolved by a predicate-matching event, the timeout timer
firing, or the abort promise resolving (with a value) or rejecting (with an
error). `Promise.race` settles exactly once, so an execution is described by
exactly one winner. -/
inductive RaceWinner where
  | eventMatch (e : JVal)
  | timeoutFired
  | abortResolved (v : JVal)
  | abortRejected (err : JVal)
deriving DecidableEq, Repr

/-- A winner is possible in a given run only if: a matching event satisfies
the predicate (the listener ignores non-matching events), and the timer can
only fire when a (truthy) timeout armed it. -/
def RaceWinner.valid (pred : JVal → Bool) (timeout : Nat) : RaceWinner → Prop
  | .eventMatch e => pred e = true
  | .timeoutFired => timeout ≠ 0
  | .abortResolved _ => True
  | .abortRejected _ => True

/-- The message of the `TimeoutError` built at helpers.ts line 150. -/
def timeoutEventMessage : String := "Timeout exceeded while waiting for event"

/-- Observable outcome of one `waitForEvent` call: the emitter's listener
list afterwards (each listener is an `(eventName, handlerId)` pair), whether
the timeout timer is still pending, and the returned/thrown value. -/
structure WaitOutcome where
  listeners : List (String × Nat)
  timerActive : Bool
  result : Except JVal JVal
deriving Repr

/-- Shallow embedding of `waitForEvent(emitter, eventName, predicate,
timeout, abortPromise)` (helpers.ts lines 129-169). `listeners0` is the
emitter's listener list before the call and `lid` the identity of the fresh
handler closure; `w` names the promise that wins the race.  The function
performs, in source order: `addEventListener` (appending the listener),
arming the timer iff `timeout` is truthy, the race settling according to
`w` with `cleanup()` (listener removal and `clearTimeout`) run in both the
fulfilled and rejected handlers, and finally the `instanceof Error`
re-throw check on the raced value. -/
def waitForEvent (eventName : String) (_pred : JVal → Bool) (_timeout : Nat)
    (listeners0 : List (String × Nat)) (lid : Nat) (w : RaceWinner) :
    WaitOutcome :=
  let listeners1 := listeners0 ++ [(eventName, lid)]
  -- cleanup(): removeEventListeners([listener]); clearTimeout(eventTimeout)
  let listenersF := listeners1.erase (eventName, lid)
  match w with
  | .eventMatch e =>
      ⟨listenersF, false, if e.isError then .error e else .ok e⟩
  | .timeoutFired =>
      ⟨listenersF, false, .error (.timeoutError timeoutEventMessage)⟩
  | .abortResolved v =>
      ⟨listenersF, false, if v.isError then .error v else .ok v⟩
  | .abortRejected err =>
      ⟨listenersF, false, .error err⟩

/- ### waitWithTimeout (helpers.ts lines 263-280) -/

/-- Which promise settles `Promise.race([promise, timeoutPromise])` first in
`waitWithTimeout`: the wrapped work resolving or rejecting, or the timeout
timer rejecting. -/
inductive WorkRaceWinner where
  | workResolved (v : JVal)
  | workRejected (e : JVal)
  | timeoutFired
deriving DecidableEq, Repr

/-- The `TimeoutError` message built at helpers.ts lines 265-267. -/
def waitWithTimeoutMessage (taskName : String) (timeout : Nat) : String :=
  "waiting for " ++ taskName ++ " failed: timeout " ++ toString timeout ++
    "ms exceeded"

/-- Observable outcome of `waitWithTimeout`: whether the timer is still
pending afterwards, and the value returned or thrown. -/
structure WWOutcome where
  timerActive : Bool
  result : Except JVal JVal
deriving Repr

/-- Shallow embedding of `waitWithTimeout(promise, taskName, timeout)`
(helpers.ts lines 263-280): the timer is armed iff `timeout` is truthy, the
race settles according to `w`, and the `finally` clause clears the timer on
every path. -/
def waitWithTimeout (taskName : String) (timeout : Nat) (w : WorkRaceWinner) :
    WWOutcome :=
  match w with
  | .workResolved v => ⟨false, .ok v⟩
  | .workRejected e => ⟨false, .error e⟩
  | .timeoutFired =>
      ⟨false, .error (.timeoutError (waitWithTimeoutMessage taskName timeout))⟩

/- ### evaluationString (helpers.ts lines 170-182) -/

/-- A JSON-serializable argument value as passed to `evaluationString`:
`undefined`, `null`, a boolean, an (integer) number, or a string. -/
inductive JSONArg where
  | undef
  | null
  | bool (b : Bool)
  | num (n : Int)
  | str (s : String)
deriving DecidableEq, Repr

/-- JSON string escaping of one character, as `JSON.stringify` performs on
string values. -/
def jsonEscapeChar (c : Char) : String :=
  if c = '"' then "\\\""
  else if c = '\\' then "\\\\"
  else if c = '\n' then "\\n"
  else if c = '\r' then "\\r"
  else if c = '\t' then "\\t"
  else String.singleton c

/-- `JSON.stringify` on the embedded argument values.  The `undef` case is
unreachable from `serializeArgument`, which tests for `undefined` first. -/
def jsonStringify : JSONArg → String
  | .undef => "undefined"
  | .null => "null"
  | .bool b => if b then "true" else "false"
  | .num n => toString n
  | .str s => "\"" ++ String.join (s.data.map jsonEscapeChar) ++ "\""

/-- `serializeArgument` from helpers.ts lines 175-180: `undefined` renders
as the literal token `undefined`, anything else via `JSON.stringify`. -/
def serializeArgument (arg : JSONArg) : String :=
  if arg = .undef then "undefined" else jsonStringify arg

/-- The first argument of `evaluationString`: a raw script string or a
function (carried by its source text), distinguished by `isString`. -/
inductive EvalInput where
  | strScript (s : String)
  | fnSource (src : String)
deriving DecidableEq, Repr

/-- Shallow embedding of `evaluationString(fun, ...args)` (helpers.ts lines
170-182).  A raw string with arguments trips the
`assert(args.length === 0, ...)`, modelled as an `Except.error` carrying the
assertion message; a raw string alone is returned unchanged; a function
source is rendered as an immediately-invoked call with the serialized
arguments joined by commas.  The function is pure: no transport interaction
occurs on any path. -/
def evaluationString (fn : EvalInput) (args : List JSONArg) :
    Except String String :=
  match fn with
  | .strScript s =>
      if args.length = 0 then .ok s
      else .error "Cannot evaluate a string with arguments"
  | .fnSource src =>
      .ok ("(" ++ src ++ ")(" ++
        String.intercalate "," (args.map serializeArgument) ++ ")")

/- ### page-binding delivery scripts (helpers.ts lines 208-230) -/

/-- The in-page `window[name].callbacks` registry: a JS `Map` from sequence
number to the pending promise's `{resolve, reject}` pair, identified here by
a promise id.  Keys are unique, as in a JS `Map`. -/
def CallbackMap : Type := List (Nat × Nat)

/-- Lookup, as `Map.prototype.get`. -/
def mapGet (m : CallbackMap) (k : Nat) : Option Nat :=
  (List.find? (fun p => p.1 = k) m).map (fun p => p.2)

/-- Removal, as `Map.prototype.delete` (as a returned updated map). -/
def mapDelete (m : CallbackMap) (k : Nat) : CallbackMap :=
  List.filter (fun p => !(p.1 == k)) m

/-- How a pending in-page promise was settled by a delivery script. -/
inductive Settlement where
  | resolved (promiseId : Nat) (v : JSONArg)
  | rejectedError (promiseId : Nat) (message stack : String)
  | rejectedValue (promiseId : Nat) (v : JSONArg)
deriving DecidableEq, Repr

/-- Behavior of the script generated by `pageBindingDeliverResultString`
(helpers.ts lines 209-212): `window[name].callbacks.get(seq).resolve(result);
window[name].callbacks.delete(seq)`.  When `seq` is absent, `.get` yields
`undefined` and the `.resolve` access throws a `TypeError` (the "not found"
case); otherwise the entry is resolved and the key deleted. -/
def deliverResult (m : CallbackMap) (seq : Nat) (result : JSONArg) :
    Except String (CallbackMap × Settlement) :=
  match mapGet m seq with
  | none => .error "TypeError: cannot read resolve of undefined"
  | some pid => .ok (mapDelete m seq, .resolved pid result)

/-- Behavior of the script generated by `pageBindingDeliverErrorString`
(helpers.ts lines 216-221): builds `new Error(message)` with the given
stack and rejects the pending entry, then deletes the key. -/
def deliverError (m : CallbackMap) (seq : Nat) (message stack : String) :
    Except String (CallbackMap × Settlement) :=
  match mapGet m seq with
  | none => .error "TypeError: cannot read reject of undefined"
  | some pid => .ok (mapDelete m seq, .rejectedError pid message stack)

/-- Behavior of the script generated by
`pageBindingDeliverErrorValueString` (helpers.ts lines 225-228): rejects the
pending entry with the arbitrary value, then deletes the key. -/
def deliverErrorValue (m : CallbackMap) (seq : Nat) (v : JSONArg) :
    Except String (CallbackMap × Settlement) :=
  match mapGet m seq with
  | none => .error "TypeError: cannot read reject of undefined"
  | some pid => .ok (mapDelete m seq, .rejectedValue pid v)

/- ### releaseObject (helpers.ts lines 101-112) -/

/-- A remote object as far as `releaseObject` inspects it. -/
structure RemoteObject where
  objectId : Option String
deriving DecidableEq, Repr

/-- Observable outcome of `releaseObject`: the protocol commands sent, the
messages reported on the `puppeteer:error` debug channel, and the value the
call settles with. -/
structure ReleaseOutcome where
  sent : List String
  debugLog : List String
  result : Except String Unit
deriving Repr

/-- Shallow embedding of `releaseObject(client, remoteObject)` (helpers.ts
lines 101-112).  `sendResult` stands for how the
`client.send("Runtime.releaseObject", ...)` promise settles when it is
issued.  Without an `objectId` nothing is sent; a send failure is caught,
logged via `debugError`, and swallowed. -/
def releaseObject (remoteObject : RemoteObject)
    (sendResult : Except String Unit) : ReleaseOutcome :=
  match remoteObject.objectId with
  | none => ⟨[], [], .ok ()⟩
  | some _ =>
      match sendResult with
      | .ok () => ⟨["Runtime.releaseObject"], [], .ok ()⟩
      | .error e => ⟨["Runtime.releaseObject"], [e], .ok ()⟩

/- ### readProtocolStream (helpers.ts lines 281-309) -/

/-- Value of one base64 alphabet character (RFC 4648), `none` for a
character outside the alphabet. -/
def base64CharVal (c : Char) : Option Nat :=
  if 'A' ≤ c ∧ c ≤ 'Z' then some (c.toNat - 65)
  else if 'a' ≤ c ∧ c ≤ 'z' then some (c.toNat - 97 + 26)
  else if '0' ≤ c ∧ c ≤ '9' then some (c.toNat - 48 + 52)
  else if c = '+' then some 62
  else if c = '/' then some 63
  else none

/-- Modelled from the spec: `base64Decode` from `vendor/std.ts` (not under
src/), the standard RFC 4648 base64 decoding of four-character groups with
`=` padding into bytes; invalid input throws, modelled as `none`. -/
def base64DecodeGroups : List Char → Option (List Nat)
  | [] => some []
  | a :: b :: c :: d :: rest =>
      match base64CharVal a, base64CharVal b with
      | some va, some vb =>
          if c = '=' then
            if d = '=' ∧ rest = [] then some [va * 4 + vb / 16] else none
          else
            match base64CharVal c with
            | some vc =>
                if d = '=' then
                  if rest = [] then
                    some [va * 4 + vb / 16, (vb % 16) * 16 + vc / 4]
                  else none
                else
                  match base64CharVal d with
                  | some vd =>
                      (base64DecodeGroups rest).map (fun bs =>
                        (va * 4 + vb / 16) ::
                        ((vb % 16) * 16 + vc / 4) ::
                        ((vc % 4) * 64 + vd) :: bs)
                  | none => none
            | none => none
      | _, _ => none
  | _ => none

/-- Base64 decoding of a string. -/
def base64Decode (s : String) : Option (List Nat) :=
  base64DecodeGroups s.data

/-- UTF-8 encoding of one code point, as `TextEncoder.encode` performs. -/
def utf8EncodeChar (c : Char) : List Nat :=
  let n := c.toNat
  if n < 128 then [n]
  else if n < 2048 then [192 + n / 64, 128 + n % 64]
  else if n < 65536 then [224 + n / 4096, 128 + (n / 64) % 64, 128 + n % 64]
  else [240 + n / 262144, 128 + (n / 4096) % 64, 128 + (n / 64) % 64,
        128 + n % 64]

/-- Encoding by `new TextEncoder().encode(s)`, as a byte list. -/
def textEncode (s : String) : List Nat :=
  (s.data.map utf8EncodeChar).flatten

/-- One response to an `IO.read` command. -/
structure IOReadResponse where
  data : String
  base64Encoded : Bool
  eof : Bool
deriving DecidableEq, Repr

/-- A protocol command sent by `readProtocolStream` on its client. -/
inductive StreamCmd where
  | read
  | close
deriving DecidableEq, Repr

/-- Decoding of one chunk (helpers.ts lines 291-293): base64 when flagged,
otherwise UTF-8 text encoding (which cannot fail). -/
def decodeChunk (r : IOReadResponse) : Option (List Nat) :=
  if r.base64Encoded then base64Decode r.data else some (textEncode r.data)

/-- Observable outcome of one `readProtocolStream` call: the commands sent
on the client in order, the bytes written to the destination file, and the
settled value — an error for a thrown exception, `.ok none` for a returned
`null`, `.ok (some bytes)` for returned bytes. -/
structure StreamOutcome where
  sent : List StreamCmd
  file : List Nat
  result : Except String (Option (List Nat))
deriving Repr

/-- The `while (!eof)` loop of `readProtocolStream` (helpers.ts lines
288-298), consuming one `IO.read` response per iteration in arrival order.
Returns the sent-command log, the file bytes, and either the collected
decoded chunks or the thrown decode error.  An exhausted response list
stands for a transport that never answers (the await would hang), modelled
as an error. -/
def readLoop (path : Bool) (responses : List IOReadResponse)
    (sent : List StreamCmd) (file : List Nat) (arrs : List (List Nat)) :
    List StreamCmd × List Nat × Except String (List (List Nat)) :=
  match responses with
  | [] => (sent, file, .error "no further IO.read response")
  | r :: rest =>
      let sent1 := sent ++ [StreamCmd.read]
      match decodeChunk r with
      | none => (sent1, file, .error "InvalidBase64: failed to decode")
      | some arr =>
          let file1 := if path then file ++ arr else file
          let arrs1 := arrs ++ [arr]
          if r.eof then (sent1, file1, .ok arrs1)
          else readLoop path rest sent1 file1 arrs1

/-- Modelled from the spec: `concatUint8Array` from `vendor/std.ts` (not
under src/), concatenating chunk buffers into one contiguous buffer; it is
total in practice. -/
def concatUint8Array (arrs : List (List Nat)) : Option (List Nat) :=
  some arrs.flatten

/-- Shallow embedding of `readProtocolStream(client, handle, path)`
(helpers.ts lines 281-309).  `cf` stands for the external
`concatUint8Array`, allowed to fail (`none` models a throw) so the
try/finally at lines 303-308 can be stated: `resultArr` starts `null`, the
`finally { return resultArr }` swallows any concatenation failure and
returns the initial `null`.  Note the `IO.close` send at line 302 happens
only after the loop finishes normally — a decode throw inside the loop
propagates before it — and always before the concatenation. -/
def readProtocolStream (cf : List (List Nat) → Option (List Nat))
    (responses : List IOReadResponse) (path : Bool) : StreamOutcome :=
  match readLoop path responses [] [] [] with
  | (sent, file, .error e) => ⟨sent, file, .error e⟩
  | (sent, file, .ok arrs) =>
      ⟨sent ++ [StreamCmd.close], file, .ok (cf arrs)⟩

/-- The decoded form of each chunk in arrival order (total on runs where
every chunk decodes). -/
def decodedChunks (rs : List IOReadResponse) : List (List Nat) :=
  rs.map (fun r => (decodeChunk r).getD [])

/- ### Helper lemmas -/

theorem charsStartWith_append (l m : List Char) :
    charsStartWith (l ++ m) l = true := by
  induction l with
  | nil => cases m <;> rfl
  | cons c cs ih => simp [charsStartWith, ih]

theorem charsContain_append_left (a x sub : List Char)
    (h : charsContain x sub = true) : charsContain (a ++ x) sub = true := by
  induction a with
  | nil => simpa using h
  | cons c cs ih =>
      simp only [List.cons_append, charsContain, List.append_eq, ih,
        Bool.or_true]

theorem charsContain_self_append (x m : List Char) :
    charsContain (x ++ m) x = true := by
  cases x with
  | nil =>
      cases m with
      | nil => rfl
      | cons c cs => simp [charsContain, charsStartWith]
  | cons c cs =>
      simp only [List.cons_append, charsContain, Bool.or_eq_true]
      left
      simpa [charsStartWith] using charsStartWith_append cs m

theorem strContains_of_data (s sub : String) (x y : List Char)
    (h : s.data = x ++ sub.data ++ y) : strContains s sub = true := by
  unfold strContains
  rw [h, List.append_assoc]
  exact charsContain_append_left _ _ _ (charsContain_self_append _ _)

theorem erase_append_singleton {α : Type} [BEq α] [LawfulBEq α]
    (l : List α) (a : α) (h : a ∉ l) : (l ++ [a]).erase a = l := by
  induction l with
  | nil => simp
  | cons x xs ih =>
      have hxa : ¬(x = a) := fun he => h (by simp [he])
      have hx : a ∉ xs := fun hm => h (by simp [hm])
      simp [List.erase_cons, hxa, ih hx]

theorem mapGet_mapDelete (m : CallbackMap) (k : Nat) :
    mapGet (mapDelete m k) k = none := by
  have hfind : List.find? (fun p => p.1 = k) (mapDelete m k) = none := by
    rw [List.find?_eq_none]
    intro x hx
    have hmem := List.mem_filter.mp hx
    simp only [Bool.not_eq_true', beq_eq_false_iff_ne, ne_eq] at hmem
    simp [hmem.2]
  simp [mapGet, hfind]

theorem readLoop_ok (path : Bool) (mid : List IOReadResponse)
    (lastR : IOReadResponse)
    (hmid : ∀ r ∈ mid, r.eof = false) (hlast : lastR.eof = true)
    (hdec : ∀ r ∈ mid ++ [lastR], (decodeChunk r).isSome = true) :
    ∀ sent file arrs,
    readLoop path (mid ++ [lastR]) sent file arrs =
      (sent ++ List.replicate (mid.length + 1) StreamCmd.read,
       file ++ (if path then (decodedChunks (mid ++ [lastR])).flatten else []),
       .ok (arrs ++ decodedChunks (mid ++ [lastR]))) := by
  induction mid with
  | nil =>
      intro sent file arrs
      obtain ⟨arr, harr⟩ :=
        Option.isSome_iff_exists.mp (hdec lastR (by simp))
      cases path <;>
        simp [readLoop, harr, hlast, decodedChunks]
  | cons r mid' ih =>
      intro sent file arrs
      obtain ⟨arr, harr⟩ := Option.isSome_iff_exists.mp (hdec r (by simp))
      have hre : r.eof = false := hmid r (by simp)
      have ih' := ih (fun x hx => hmid x (by simp [hx]))
        (fun x hx => hdec x (by simp at hx ⊢; tauto))
      cases path <;>
        simp [readLoop, harr, hre, ih', decodedChunks,
          List.replicate_succ, List.append_assoc]

/- ### Claim theorems -/

/-- C5: each of the three generated delivery scripts looks up the pending
callback entry for the sequence number, settles it exactly once (resolve
for a result, reject for a structured error or an arbitrary error value),
and removes the entry from the callbacks map, so a second lookup — and a
second delivery — for the same sequence number finds no entry. -/
theorem deliver_scripts_exactly_once (m : CallbackMap) (seq pid : Nat)
    (result v : JSONArg) (message stack : String)
    (h : mapGet m seq = some pid) :
    deliverResult m seq result
      = .ok (mapDelete m seq, .resolved pid result) ∧
    deliverError m seq message stack
      = .ok (mapDelete m seq, .rejectedError pid message stack) ∧
    deliverErrorValue m seq v
      = .ok (mapDelete m seq, .rejectedValue pid v) ∧
    mapGet (mapDelete m seq) seq = none ∧
    (∀ r2, deliverResult (mapDelete m seq) seq r2
      = .error "TypeError: cannot read resolve of undefined") := by
  refine ⟨?_, ?_, ?_, mapGet_mapDelete m seq, ?_⟩ <;>
    simp [deliverResult, deliverError, deliverErrorValue, h,
      mapGet_mapDelete]

/-- Witness for `deliver_scripts_exactly_once` on a concrete two-entry
callbacks map. -/
theorem deliver_scripts_exactly_once_witness :
    mapGet [(1, 10), (2, 20)] 1 = some 10 ∧
    deliverResult [(1, 10), (2, 20)] 1 (.str "ok")
      = .ok ([(2, 20)], .resolved 10 (.str "ok")) ∧
    mapGet (mapDelete [(1, 10), (2, 20)] 1) 1 = none := by
  have h := deliver_scripts_exactly_once [(1, 10), (2, 20)] 1 10
    (.str "ok") (.null) "m" "s" (by decide)
  exact ⟨by decide, h.1, h.2.2.2.1⟩

/-- C6: on a function source, `evaluationString` renders the
immediately-invoked form with each argument JSON-encoded except
`undefined`, which becomes the literal token `undefined`; the scripts for
`undefined` and `null` are distinct. -/
theorem evaluationString_function_form (src : String) (args : List JSONArg) :
    evaluationString (.fnSource src) args
      = .ok ("(" ++ src ++ ")(" ++ String.intercalate ","
          (args.map (fun a =>
            if a = .undef then "undefined" else jsonStringify a)) ++ ")") ∧
    evaluationString (.fnSource src) [.undef]
      = .ok ("(" ++ src ++ ")(" ++ "undefined" ++ ")") ∧
    evaluationString (.fnSource src) [.null]
      = .ok ("(" ++ src ++ ")(" ++ "null" ++ ")") ∧
    evaluationString (.fnSource src) [.undef]
      ≠ evaluationString (.fnSource src) [.null] := by
  refine ⟨rfl, rfl, rfl, ?_⟩
  intro hcontra
  have h1 : ("(" ++ src ++ ")(" ++ "undefined" ++ ")" : String)
      = "(" ++ src ++ ")(" ++ "null" ++ ")" := by
    have := hcontra
    simp only [evaluationString] at this
    exact Except.ok.inj this
  have h2 := congrArg String.length h1
  simp [String.length_append] at h2
  exact absurd h2 (by decide)

/-- Witness for `evaluationString_function_form` at a concrete function
source. -/
theorem evaluationString_function_form_witness :
    evaluationString (.fnSource "(x) => x") [.undef]
      = .ok "((x) => x)(undefined)" ∧
    evaluationString (.fnSource "(x) => x") [.null]
      = .ok "((x) => x)(null)" := by
  have h := evaluationString_function_form "(x) => x" []
  exact ⟨h.2.1, h.2.2.1⟩

/-- C7: a raw string script with a nonzero argument count trips the
`assert` synchronously — the call fails with the argument-error message
before anything else happens (`evaluationString` is pure and sends no
protocol message on any path). -/
theorem evaluationString_string_args_error (s : String)
    (args : List JSONArg) (h : args ≠ []) :
    evaluationString (.strScript s) args
      = .error "Cannot evaluate a string with arguments" := by
  cases args with
  | nil => exact absurd rfl h
  | cons a rest => simp [evaluationString]

/-- Witness for `evaluationString_string_args_error` at a concrete raw
script and argument. -/
theorem evaluationString_string_args_error_witness :
    ([JSONArg.num 3] ≠ ([] : List JSONArg)) ∧
    evaluationString (.strScript "document.title") [JSONArg.num 3]
      = .error "Cannot evaluate a string with arguments" :=
  ⟨by decide,
   evaluationString_string_args_error "document.title" [JSONArg.num 3]
     (by decide)⟩

/-- C9: a raw string script with zero arguments is returned unchanged, not
wrapped in the invocation form. -/
theorem evaluationString_string_identity (s : String) :
    evaluationString (.strScript s) [] = .ok s := rfl

/-- C8: `releaseObject` always settles successfully: without an `objectId`
nothing is sent, and a failing release command is swallowed while the
error is reported on the debug channel. -/
theorem releaseObject_never_throws (ro : RemoteObject)
    (sendResult : Except String Unit) :
    (releaseObject ro sendResult).result = .ok () ∧
    (ro.objectId = none → (releaseObject ro sendResult).sent = []) ∧
    (∀ e, sendResult = .error e → ro.objectId.isSome = true →
      e ∈ (releaseObject ro sendResult).debugLog) := by
  obtain ⟨oid⟩ := ro
  cases oid <;> cases sendResult <;> simp [releaseObject]

/-- Witness for `releaseObject_never_throws` on a failing release of a
concrete object. -/
theorem releaseObject_never_throws_witness :
    (releaseObject ⟨some "obj-1"⟩ (.error "No object found")).result
      = .ok () ∧
    "No object found"
      ∈ (releaseObject ⟨some "obj-1"⟩ (.error "No object found")).debugLog :=
  ⟨(releaseObject_never_throws ⟨some "obj-1"⟩ (.error "No object found")).1,
   (releaseObject_never_throws ⟨some "obj-1"⟩
      (.error "No object found")).2.2 "No object found" rfl rfl⟩

/-- C1: whichever of the raced outcomes settles a `waitForEvent` call —
predicate match, timeout, or abort (resolution or rejection) — the
registered listener is removed and the pending timer cancelled, so the
emitter's listener list afterwards equals its state before the call and no
timer remains that could fire a late spurious `TimeoutError`; the settled
result is the one determined by the unique race winner (a non-error
matching event resolves with that event; the timer rejects with the
`TimeoutError`). -/
theorem waitForEvent_cleanup_on_every_path (eventName : String)
    (pred : JVal → Bool) (timeout : Nat)
    (listeners0 : List (String × Nat)) (lid : Nat) (w : RaceWinner)
    (_hw : w.valid pred timeout)
    (hfresh : (eventName, lid) ∉ listeners0) :
    (waitForEvent eventName pred timeout listeners0 lid w).listeners
      = listeners0 ∧
    (waitForEvent eventName pred timeout listeners0 lid w).timerActive
      = false ∧
    (∀ e, w = .eventMatch e → e.isError = false →
      (waitForEvent eventName pred timeout listeners0 lid w).result
        = .ok e) ∧
    (w = .timeoutFired →
      (waitForEvent eventName pred timeout listeners0 lid w).result
        = .error (.timeoutError timeoutEventMessage)) := by
  have hl := erase_append_singleton listeners0 (eventName, lid) hfresh
  refine ⟨?_, ?_, ?_, ?_⟩
  · cases w <;> simp [waitForEvent] <;> exact hl
  · cases w <;> simp [waitForEvent]
  · intro e he herr
    subst he
    simp [waitForEvent, herr]
  · intro ht
    subst ht
    rfl

/-- Witness for `waitForEvent_cleanup_on_every_path`: a matching non-error
event resolves the wait, restores the listener list and cancels the
timer. -/
theorem waitForEvent_cleanup_on_every_path_witness :
    (waitForEvent "response" (fun _ => true) 30 [("request", 7)] 3
        (.eventMatch (.value "payload"))).listeners = [("request", 7)] ∧
    (waitForEvent "response" (fun _ => true) 30 [("request", 7)] 3
        (.eventMatch (.value "payload"))).timerActive = false ∧
    (waitForEvent "response" (fun _ => true) 30 [("request", 7)] 3
        (.eventMatch (.value "payload"))).result
      = .ok (.value "payload") := by
  have h := waitForEvent_cleanup_on_every_path "response" (fun _ => true)
    30 [("request", 7)] 3 (.eventMatch (.value "payload")) rfl (by decide)
  exact ⟨h.1, h.2.1, h.2.2.1 (.value "payload") rfl rfl⟩

/-- C10: when the race is won by a value that is an `Error` instance —
a matching event that is itself an `Error`, or the abort promise resolving
(not rejecting) with an `Error` value — `waitForEvent` throws that error
instead of returning it, and cleanup still runs on these paths. -/
theorem waitForEvent_throws_error_values (eventName : String)
    (pred : JVal → Bool) (timeout : Nat)
    (listeners0 : List (String × Nat)) (lid : Nat) (v : JVal)
    (herr : v.isError = true) (hfresh : (eventName, lid) ∉ listeners0) :
    (waitForEvent eventName pred timeout listeners0 lid
        (.eventMatch v)).result = .error v ∧
    (waitForEvent eventName pred timeout listeners0 lid
        (.abortResolved v)).result = .error v ∧
    (waitForEvent eventName pred timeout listeners0 lid
        (.eventMatch v)).listeners = listeners0 ∧
    (waitForEvent eventName pred timeout listeners0 lid
        (.abortResolved v)).listeners = listeners0 ∧
    (waitForEvent eventName pred timeout listeners0 lid
        (.eventMatch v)).timerActive = false ∧
    (waitForEvent eventName pred timeout listeners0 lid
        (.abortResolved v)).timerActive = false := by
  have hl := erase_append_singleton listeners0 (eventName, lid) hfresh
  refine ⟨?_, ?_, ?_, ?_, ?_, ?_⟩ <;> simp [waitForEvent, herr] <;>
    exact hl

/-- Witness for `waitForEvent_throws_error_values` with a concrete `Error`
event. -/
theorem waitForEvent_throws_error_values_witness :
    (waitForEvent "close" (fun _ => true) 0 [] 5
        (.eventMatch (.jsError "boom"))).result = .error (.jsError "boom") ∧
    (waitForEvent "close" (fun _ => true) 0 [] 5
        (.abortResolved (.jsError "boom"))).result
      = .error (.jsError "boom") ∧
    (waitForEvent "close" (fun _ => true) 0 [] 5
        (.eventMatch (.jsError "boom"))).listeners = [] := by
  have h := waitForEvent_throws_error_values "close" (fun _ => true) 0 [] 5
    (.jsError "boom") rfl (by decide)
  exact ⟨h.1, h.2.1, h.2.2.1⟩

/-- C4 counterexample: the `TimeoutError` thrown by `waitForEvent` carries
the fixed message "Timeout exceeded while waiting for event", which does
not name the awaited event — here the wait is for event "request" and the
message does not contain "request". -/
theorem waitForEvent_timeout_message_is_generic :
    (waitForEvent "request" (fun _ => false) 5 [] 0 .timeoutFired).result
      = .error (.timeoutError timeoutEventMessage) ∧
    timeoutEventMessage = "Timeout exceeded while waiting for event" ∧
    strContains timeoutEventMessage "request" = false :=
  ⟨rfl, rfl, by decide⟩

/-- C4 (amended): a `waitWithTimeout` timeout rejects with a `TimeoutError`
whose message contains the task label and the bound in the form
"waiting for <label> failed: timeout <timeoutMs>ms exceeded", and cancels
the timer; a `waitForEvent` timeout rejects with the fixed generic message
"Timeout exceeded while waiting for event", which does not name the
specific awaited event. -/
theorem waitWithTimeout_timeout_error_names_task (taskName : String)
    (timeout : Nat) (_ht : timeout ≠ 0) :
    (waitWithTimeout taskName timeout .timeoutFired).result
      = .error (.timeoutError (waitWithTimeoutMessage taskName timeout)) ∧
    (waitWithTimeout taskName timeout .timeoutFired).timerActive = false ∧
    strContains (waitWithTimeoutMessage taskName timeout) taskName = true ∧
    strContains (waitWithTimeoutMessage taskName timeout)
      ("timeout " ++ toString timeout ++ "ms exceeded") = true ∧
    (∀ eventName pred listeners0 lid,
      (waitForEvent eventName pred timeout listeners0 lid
          .timeoutFired).result
        = .error (.timeoutError timeoutEventMessage)) := by
  refine ⟨rfl, rfl, ?_, ?_, fun _ _ _ _ => rfl⟩
  · apply strContains_of_data _ _ ("waiting for ".data)
      ((" failed: timeout " ++ toString timeout ++ "ms exceeded").data)
    simp [waitWithTimeoutMessage, String.data_append]
  · have hsplit : (" failed: timeout ").data
        = (" failed: ").data ++ ("timeout ").data := by decide
    apply strContains_of_data _ _
      (("waiting for " ++ taskName ++ " failed: ").data) []
    simp [waitWithTimeoutMessage, String.data_append, hsplit]

/-- Witness for `waitWithTimeout_timeout_error_names_task` at a concrete
label and bound. -/
theorem waitWithTimeout_timeout_error_names_task_witness :
    ((30000 : Nat) ≠ 0) ∧
    (waitWithTimeout "selector .foo" 30000 .timeoutFired).result
      = .error (.timeoutError
          (waitWithTimeoutMessage "selector .foo" 30000)) ∧
    strContains (waitWithTimeoutMessage "selector .foo" 30000)
      "selector .foo" = true :=
  ⟨by decide,
   (waitWithTimeout_timeout_error_names_task "selector .foo" 30000
      (by decide)).1,
   (waitWithTimeout_timeout_error_names_task "selector .foo" 30000
      (by decide)).2.2.1⟩

/-- C2: on a stream whose successive `IO.read` responses decode
successfully, with the end-of-stream flag set exactly on the last, the
reader returns the concatenation of the decoded chunks in arrival order,
writes the same bytes to the destination file as the chunks arrive, and
issues exactly one `IO.close` on the handle, after all the reads. -/
theorem readProtocolStream_reads_decodes_and_closes
    (mid : List IOReadResponse) (lastR : IOReadResponse)
    (hmid : ∀ r ∈ mid, r.eof = false) (hlast : lastR.eof = true)
    (hdec : ∀ r ∈ mid ++ [lastR], (decodeChunk r).isSome = true) :
    (readProtocolStream concatUint8Array (mid ++ [lastR]) true).result
      = .ok (some (decodedChunks (mid ++ [lastR])).flatten) ∧
    (readProtocolStream concatUint8Array (mid ++ [lastR]) true).file
      = (decodedChunks (mid ++ [lastR])).flatten ∧
    (readProtocolStream concatUint8Array (mid ++ [lastR]) true).sent
      = List.replicate (mid.length + 1) StreamCmd.read
          ++ [StreamCmd.close] ∧
    List.count StreamCmd.close
      (readProtocolStream concatUint8Array (mid ++ [lastR]) true).sent
      = 1 := by
  have h := readLoop_ok true mid lastR hmid hlast hdec [] [] []
  refine ⟨?_, ?_, ?_, ?_⟩ <;>
    simp [readProtocolStream, h, concatUint8Array, List.count_append,
      List.count_replicate]

/-- Witness for `readProtocolStream_reads_decodes_and_closes` on the
two-chunk base64 stream "QQ==", "Qg==" (bytes `A` then `B`). -/
theorem readProtocolStream_reads_decodes_and_closes_witness :
    (readProtocolStream concatUint8Array
        ([⟨"QQ==", true, false⟩] ++ [⟨"Qg==", true, true⟩]) true).result
      = .ok (some [65, 66]) ∧
    (readProtocolStream concatUint8Array
        ([⟨"QQ==", true, false⟩] ++ [⟨"Qg==", true, true⟩]) true).file
      = [65, 66] ∧
    List.count StreamCmd.close
      (readProtocolStream concatUint8Array
        ([⟨"QQ==", true, false⟩] ++ [⟨"Qg==", true, true⟩]) true).sent
      = 1 := by
  have h := readProtocolStream_reads_decodes_and_closes
    [⟨"QQ==", true, false⟩] ⟨"Qg==", true, true⟩
    (by decide) rfl (by decide)
  have hd : (decodedChunks
      ([⟨"QQ==", true, false⟩] ++ [⟨"Qg==", true, true⟩])).flatten
      = [65, 66] := by decide
  exact ⟨hd ▸ h.1, hd ▸ h.2.1, h.2.2.2⟩

/-- C3 counterexample: when a chunk fails to decode (invalid base64), the
exception propagates out of the read loop before the `IO.close` send is
reached — the command log of the run contains no close at all, refuting
that the close is issued even when a decoding step fails. -/
theorem readProtocolStream_no_close_on_decode_failure :
    (readProtocolStream concatUint8Array [⟨"!!!!", true, true⟩] true).sent
      = [StreamCmd.read] ∧
    List.count StreamCmd.close
      (readProtocolStream concatUint8Array
        [⟨"!!!!", true, true⟩] true).sent = 0 ∧
    (readProtocolStream concatUint8Array [⟨"!!!!", true, true⟩]
        true).result = .error "InvalidBase64: failed to decode" :=
  ⟨by decide, by decide, rfl⟩

/-- C3 (amended): on every run whose chunks all decode successfully, the
`IO.close` is issued after the final chunk, and it is issued regardless of
how the final concatenation behaves — for an arbitrary concatenation
function `cf`, including a failing one, the close is in the command log
and the reported result is whatever the `finally`-wrapped concatenation
yields (`null` on concatenation failure). -/
theorem readProtocolStream_close_regardless_of_concat
    (cf : List (List Nat) → Option (List Nat))
    (mid : List IOReadResponse) (lastR : IOReadResponse) (path : Bool)
    (hmid : ∀ r ∈ mid, r.eof = false) (hlast : lastR.eof = true)
    (hdec : ∀ r ∈ mid ++ [lastR], (decodeChunk r).isSome = true) :
    StreamCmd.close
      ∈ (readProtocolStream cf (mid ++ [lastR]) path).sent ∧
    (readProtocolStream cf (mid ++ [lastR]) path).result
      = .ok (cf (decodedChunks (mid ++ [lastR]))) := by
  have h := readLoop_ok path mid lastR hmid hlast hdec [] [] []
  refine ⟨?_, ?_⟩ <;> simp [readProtocolStream, h]

/-- Witness for `readProtocolStream_close_regardless_of_concat` with a
concatenation function that always fails: the close is still issued and
the reported result is `null`. -/
theorem readProtocolStream_close_regardless_of_concat_witness :
    StreamCmd.close
      ∈ (readProtocolStream (fun _ => none)
          ([] ++ [⟨"Qg==", true, true⟩]) true).sent ∧
    (readProtocolStream (fun _ => none)
        ([] ++ [⟨"Qg==", true, true⟩]) true).result = .ok none := by
  have h := readProtocolStream_close_regardless_of_concat (fun _ => none)
    [] ⟨"Qg==", true, true⟩ true (by decide) rfl (by decide)
  exact ⟨h.1, h.2⟩

end PuppeteerHelpers
